import Mathlib

/-!
Shallow embedding of the delta_bot market-making core (risk engine, quote
engine, fill accounting, and order-ladder manager) over exact rational
arithmetic, together with theorems settling the specification claims.
-/

namespace DeltaBot

/-! ## Configuration constants (config.py) -/

def MIN_MOVE_TO_REFRESH_BPS : ℚ := 2

def MAX_ACTIONS_PER_SECOND : ℕ := 95

def MAKER_REBATE_BPS : ℚ := 2

def TAKER_FEE_BPS : ℚ := 5

def EFFECTIVE_MAKER_EDGE_BPS : ℚ := MAKER_REBATE_BPS + TAKER_FEE_BPS

def drawdown_stop_pct : ℚ := 15/100

def hard_stop_pct : ℚ := 25/100

def DRAWDOWN_SPREAD_MULT : ℚ := 3/2

def DRAWDOWN_SIZE_REDUCTION : ℚ := 7/10

def MISPRICING_INTENSITY_BPS : ℚ := 40

def MISPRICING_SIZE_BONUS : ℚ := 4/5

def MISPRICING_SIZE_PENALTY : ℚ := 1/2

def ETF_SYMBOL : String := "ETF"

def SYNTHETIC_WEIGHTS (symbol : String) : ℚ :=
  if symbol = "XYZ" then 1/2
  else if symbol = "ABC" then 3/10
  else if symbol = "DEF" then 1/5
  else 0

/-! ## Risk engine (risk.py) -/

/-- Embedding of risk.drawdown_adjustments: hard stop at 25% drawdown,
unrestricted below 15%, quadratic interpolation in between. -/
def drawdown_adjustments (drawdown_pct : ℚ) : ℚ × ℚ × Bool :=
  if hard_stop_pct ≤ drawdown_pct then (2, 0, true)
  else if drawdown_pct ≤ drawdown_stop_pct then (1, 1, false)
  else
    let severity := (drawdown_pct - drawdown_stop_pct) / (hard_stop_pct - drawdown_stop_pct)
    let clamped := max 0 (min 1 severity)
    let curved := clamped * clamped
    (1 + curved * DRAWDOWN_SPREAD_MULT,
     max (1/5) (1 - curved * DRAWDOWN_SIZE_REDUCTION),
     false)

/-- The interpolation parameter used by drawdown_adjustments inside the band. -/
def band_severity (d : ℚ) : ℚ :=
  (d - drawdown_stop_pct) / (hard_stop_pct - drawdown_stop_pct)

theorem drawdown_adjustments_hard (d : ℚ) (h : hard_stop_pct ≤ d) :
    drawdown_adjustments d = (2, 0, true) := by
  simp [drawdown_adjustments, h]

theorem drawdown_adjustments_soft (d : ℚ) (h : d ≤ drawdown_stop_pct) :
    drawdown_adjustments d = (1, 1, false) := by
  have hlt : ¬ hard_stop_pct ≤ d := by
    simp only [hard_stop_pct, drawdown_stop_pct] at *
    linarith
  simp [drawdown_adjustments, hlt, h]

theorem band_severity_nonneg (d : ℚ) (h : drawdown_stop_pct < d) :
    0 ≤ band_severity d := by
  simp only [band_severity, drawdown_stop_pct, hard_stop_pct] at *
  apply div_nonneg <;> linarith

theorem band_severity_le_one (d : ℚ) (h : d < hard_stop_pct) :
    band_severity d ≤ 1 := by
  simp only [band_severity, drawdown_stop_pct, hard_stop_pct] at *
  rw [div_le_one (by norm_num)]
  linarith

theorem band_severity_mono (d1 d2 : ℚ) (h : d1 ≤ d2) :
    band_severity d1 ≤ band_severity d2 := by
  simp only [band_severity, drawdown_stop_pct, hard_stop_pct]
  gcongr

theorem drawdown_adjustments_band (d : ℚ) (h1 : drawdown_stop_pct < d)
    (h2 : d < hard_stop_pct) :
    drawdown_adjustments d =
      (1 + band_severity d * band_severity d * DRAWDOWN_SPREAD_MULT,
       max (1/5) (1 - band_severity d * band_severity d * DRAWDOWN_SIZE_REDUCTION),
       false) := by
  have hns : ¬ hard_stop_pct ≤ d := not_le.mpr h2
  have hns2 : ¬ d ≤ drawdown_stop_pct := not_le.mpr h1
  have hmin : min 1 (band_severity d) = band_severity d :=
    min_eq_right (band_severity_le_one d h2)
  have hmax : max 0 (band_severity d) = band_severity d :=
    max_eq_right (band_severity_nonneg d h1)
  simp only [drawdown_adjustments, hns, hns2, if_false, if_true, ite_false]
  rw [show (d - drawdown_stop_pct) / (hard_stop_pct - drawdown_stop_pct)
        = band_severity d from rfl]
  rw [hmin, hmax]

theorem size_scale_nonneg (d : ℚ) : 0 ≤ (drawdown_adjustments d).2.1 := by
  rcases le_or_lt hard_stop_pct d with h | h
  · rw [drawdown_adjustments_hard d h]
  · rcases le_or_lt d drawdown_stop_pct with h2 | h2
    · rw [drawdown_adjustments_soft d h2]
      norm_num
    · rw [drawdown_adjustments_band d h2 h]
      exact le_trans (by norm_num) (le_max_left _ _)

theorem size_scale_mono (d1 d2 : ℚ) (h : d1 ≤ d2) :
    (drawdown_adjustments d2).2.1 ≤ (drawdown_adjustments d1).2.1 := by
  rcases le_or_lt hard_stop_pct d2 with hh2 | hh2
  · rw [drawdown_adjustments_hard d2 hh2]
    exact size_scale_nonneg d1
  · rcases le_or_lt d2 drawdown_stop_pct with hs2 | hs2
    · rw [drawdown_adjustments_soft d2 hs2,
        drawdown_adjustments_soft d1 (le_trans h hs2)]
    · rw [drawdown_adjustments_band d2 hs2 hh2]
      rcases le_or_lt d1 drawdown_stop_pct with hs1 | hs1
      · rw [drawdown_adjustments_soft d1 hs1]
        dsimp only
        apply max_le (by norm_num)
        have hc := mul_self_nonneg (band_severity d2)
        simp only [DRAWDOWN_SIZE_REDUCTION]
        nlinarith
      · rw [drawdown_adjustments_band d1 hs1 (lt_of_le_of_lt h hh2)]
        dsimp only
        apply max_le_max (le_refl _)
        have hs1n := band_severity_nonneg d1 hs1
        have hmono := band_severity_mono d1 d2 h
        have hsq := mul_self_le_mul_self hs1n hmono
        simp only [DRAWDOWN_SIZE_REDUCTION]
        nlinarith

theorem spread_scale_mono (d1 d2 : ℚ) (h : d1 ≤ d2) (h2 : d2 < hard_stop_pct) :
    (drawdown_adjustments d1).1 ≤ (drawdown_adjustments d2).1 := by
  rcases le_or_lt d2 drawdown_stop_pct with hs2 | hs2
  · rw [drawdown_adjustments_soft d2 hs2,
      drawdown_adjustments_soft d1 (le_trans h hs2)]
  · rw [drawdown_adjustments_band d2 hs2 h2]
    rcases le_or_lt d1 drawdown_stop_pct with hs1 | hs1
    · rw [drawdown_adjustments_soft d1 hs1]
      dsimp only
      have hc := mul_self_nonneg (band_severity d2)
      simp only [DRAWDOWN_SPREAD_MULT]
      nlinarith
    · rw [drawdown_adjustments_band d1 hs1 (lt_of_le_of_lt h h2)]
      dsimp only
      have hs1n := band_severity_nonneg d1 hs1
      have hmono := band_severity_mono d1 d2 h
      have hsq := mul_self_le_mul_self hs1n hmono
      simp only [DRAWDOWN_SPREAD_MULT]
      nlinarith

theorem throttled_iff_hard (d : ℚ) :
    (drawdown_adjustments d).2.2 = true ↔ hard_stop_pct ≤ d := by
  rcases le_or_lt hard_stop_pct d with h | h
  · rw [drawdown_adjustments_hard d h]
    simpa using h
  · rcases le_or_lt d drawdown_stop_pct with h2 | h2
    · rw [drawdown_adjustments_soft d h2]
      simpa using not_le.mpr h
    · rw [drawdown_adjustments_band d h2 h]
      simpa using not_le.mpr h

theorem size_zero_iff_throttled (d : ℚ) :
    (drawdown_adjustments d).2.1 = 0 ↔ (drawdown_adjustments d).2.2 = true := by
  rcases le_or_lt hard_stop_pct d with h | h
  · rw [drawdown_adjustments_hard d h]
    simp
  · rcases le_or_lt d drawdown_stop_pct with h2 | h2
    · rw [drawdown_adjustments_soft d h2]
      simp
    · rw [drawdown_adjustments_band d h2 h]
      dsimp only
      simp only [Bool.false_eq_true, iff_false]
      intro hz
      have h5 : (1/5 : ℚ) ≤
          max (1/5) (1 - band_severity d * band_severity d * DRAWDOWN_SIZE_REDUCTION) :=
        le_max_left _ _
      rw [hz] at h5
      norm_num at h5

/-- C5: drawdown_adjustments returns exactly (2, 0, true) when the drawdown
is at least 0.25, exactly (1, 1, false) when it is at most 0.15, and
otherwise the quadratic interpolation (1 + severity * 1.5,
max 0.2 (1 - severity * 0.7), false) with
severity = ((d - 0.15)/(0.25 - 0.15))^2; in particular it maps 0.20 to
(1.375, 0.825, false). -/
theorem drawdown_adjustments_spec (d : ℚ) :
    (25/100 ≤ d → drawdown_adjustments d = (2, 0, true)) ∧
    (d ≤ 15/100 → drawdown_adjustments d = (1, 1, false)) ∧
    (15/100 < d → d < 25/100 →
      drawdown_adjustments d =
        (1 + ((d - 15/100) / (25/100 - 15/100))^2 * (3/2),
         max (2/10) (1 - ((d - 15/100) / (25/100 - 15/100))^2 * (7/10)),
         false)) ∧
    drawdown_adjustments (20/100) = (1375/1000, 825/1000, false) := by
  refine ⟨fun h => drawdown_adjustments_hard d h,
    fun h => drawdown_adjustments_soft d h, fun h1 h2 => ?_, ?_⟩
  · rw [drawdown_adjustments_band d h1 h2]
    simp only [band_severity, drawdown_stop_pct, hard_stop_pct,
      DRAWDOWN_SPREAD_MULT, DRAWDOWN_SIZE_REDUCTION, pow_two]
    norm_num
  · rw [drawdown_adjustments_band (20/100) (by norm_num [drawdown_stop_pct])
      (by norm_num [hard_stop_pct])]
    simp only [band_severity, drawdown_stop_pct, hard_stop_pct,
      DRAWDOWN_SPREAD_MULT, DRAWDOWN_SIZE_REDUCTION]
    norm_num

/-- Witness for C5 at the concrete drawdowns 0.30, 0.10 and 0.20. -/
theorem drawdown_adjustments_spec_witness :
    drawdown_adjustments (30/100) = (2, 0, true) ∧
    drawdown_adjustments (10/100) = (1, 1, false) ∧
    drawdown_adjustments (20/100) =
      (1 + ((20/100 - 15/100) / (25/100 - 15/100))^2 * (3/2),
       max (2/10) (1 - ((20/100 - 15/100) / (25/100 - 15/100))^2 * (7/10)),
       false) :=
  ⟨(drawdown_adjustments_spec (30/100)).1 (by norm_num),
   (drawdown_adjustments_spec (10/100)).2.1 (by norm_num),
   (drawdown_adjustments_spec (20/100)).2.2.1 (by norm_num) (by norm_num)⟩

/-- C6 counterexample: 0.24 and 0.25 both lie in the closed soft-to-hard
band and 0.24 is at most 0.25, yet the spread scale at 0.24 (2.215)
strictly exceeds the spread scale at 0.25 (2.0), so spread_scale is not
monotone non-decreasing in the drawdown as stated. -/
theorem drawdown_adjustments_monotone_cex :
    (24/100 : ℚ) ≤ 25/100 ∧
    (drawdown_adjustments (25/100)).1 < (drawdown_adjustments (24/100)).1 := by
  constructor
  · norm_num
  · rw [drawdown_adjustments_hard (25/100) (by norm_num [hard_stop_pct]),
      drawdown_adjustments_band (24/100) (by norm_num [drawdown_stop_pct])
        (by norm_num [hard_stop_pct])]
    simp only [band_severity, drawdown_stop_pct, hard_stop_pct,
      DRAWDOWN_SPREAD_MULT]
    norm_num

/-- C6 (amended): size_scale is non-increasing in the drawdown everywhere;
spread_scale is non-decreasing as long as the larger drawdown stays below
the 0.25 hard stop (crossing the hard stop drops the spread scale from up
to 2.5 back to 2.0); throttled holds iff the drawdown is at least 0.25;
and size_scale is zero iff throttled. -/
theorem drawdown_adjustments_monotone (d1 d2 : ℚ) :
    (d1 ≤ d2 → (drawdown_adjustments d2).2.1 ≤ (drawdown_adjustments d1).2.1) ∧
    (d1 ≤ d2 → d2 < 25/100 →
      (drawdown_adjustments d1).1 ≤ (drawdown_adjustments d2).1) ∧
    ((drawdown_adjustments d1).2.2 = true ↔ 25/100 ≤ d1) ∧
    ((drawdown_adjustments d1).2.1 = 0 ↔ (drawdown_adjustments d1).2.2 = true) :=
  ⟨fun h => size_scale_mono d1 d2 h,
   fun h h2 => spread_scale_mono d1 d2 h h2,
   throttled_iff_hard d1,
   size_zero_iff_throttled d1⟩

/-- Witness for C6 at the concrete drawdowns 0.18, 0.22 and 0.30. -/
theorem drawdown_adjustments_monotone_witness :
    ((drawdown_adjustments (22/100)).2.1 ≤ (drawdown_adjustments (18/100)).2.1) ∧
    ((drawdown_adjustments (18/100)).1 ≤ (drawdown_adjustments (22/100)).1) ∧
    ((drawdown_adjustments (30/100)).2.2 = true ↔ (25/100 : ℚ) ≤ 30/100) ∧
    ((drawdown_adjustments (30/100)).2.1 = 0 ↔
      (drawdown_adjustments (30/100)).2.2 = true) :=
  ⟨(drawdown_adjustments_monotone (18/100) (22/100)).1 (by norm_num),
   (drawdown_adjustments_monotone (18/100) (22/100)).2.1 (by norm_num) (by norm_num),
   (drawdown_adjustments_monotone (30/100) 0).2.2.1,
   (drawdown_adjustments_monotone (30/100) 0).2.2.2⟩

/-! ## Python primitives

Arithmetic helpers mirroring the Python built-ins min, max and abs.  They
are written with explicit conditionals so that all embedded functions
reduce inside the kernel; bridge lemmas connect them to the Mathlib
operations for use in inequality proofs. -/

def qmax (a b : ℚ) : ℚ := if a ≤ b then b else a

def qmin (a b : ℚ) : ℚ := if a ≤ b then a else b

def imax (a b : ℤ) : ℤ := if a ≤ b then b else a

def imin (a b : ℤ) : ℤ := if a ≤ b then a else b

def iabs (a : ℤ) : ℤ := if a < 0 then -a else a

def qabs (a : ℚ) : ℚ := if a < 0 then -a else a

theorem qmax_eq (a b : ℚ) : qmax a b = max a b := (max_def a b).symm

theorem qmin_eq (a b : ℚ) : qmin a b = min a b := (min_def a b).symm

theorem imax_eq (a b : ℤ) : imax a b = max a b := (max_def a b).symm

theorem imin_eq (a b : ℤ) : imin a b = min a b := (min_def a b).symm

theorem iabs_eq (a : ℤ) : iabs a = |a| := by
  unfold iabs
  split_ifs with h
  · exact (abs_of_neg h).symm
  · exact (abs_of_nonneg (not_lt.mp h)).symm

theorem qabs_eq (a : ℚ) : qabs a = |a| := by
  unfold qabs
  split_ifs with h
  · exact (abs_of_neg h).symm
  · exact (abs_of_nonneg (not_lt.mp h)).symm

/-! ## Domain model (models.py) -/

inductive Side where
  | bid : Side
  | ask : Side
deriving DecidableEq

structure PositionState where
  symbol : String
  position : ℤ
  vwap : ℚ
deriving DecidableEq

structure PnLState where
  realized : ℚ
  unrealized : ℚ
  equity_high_watermark : ℚ
deriving DecidableEq

/-- The coordinator-owned mutable state touched by Strategy.register_fill:
the per-symbol position map and the PnL record. -/
structure StrategyState where
  positions : String → PositionState
  pnl : PnLState

/-! ## Fill ingestion (strategy.py, Strategy.register_fill) -/

/-- Embedding of Strategy.register_fill: realizes PnL on the closing
portion of a fill, updates the position VWAP, and stores the new signed
position. -/
def register_fill (st : StrategyState) (symbol : String) (side : Side)
    (size : ℕ) (price : ℚ) : StrategyState :=
  let state := st.positions symbol
  let signed_qty : ℤ := match side with
    | Side.bid => (size : ℤ)
    | Side.ask => -(size : ℤ)
  let pre_position := state.position
  let realized :=
    if 0 < pre_position ∧ signed_qty < 0 then
      st.pnl.realized + ((imin pre_position (iabs signed_qty) : ℤ) : ℚ) * (price - state.vwap)
    else if pre_position < 0 ∧ 0 < signed_qty then
      st.pnl.realized + ((imin (iabs pre_position) signed_qty : ℤ) : ℚ) * (state.vwap - price)
    else st.pnl.realized
  let new_position := pre_position + signed_qty
  let vwap :=
    if pre_position = 0 ∨ (0 < pre_position ∧ 0 < signed_qty) ∨
        (pre_position < 0 ∧ signed_qty < 0) then
      let total_size := iabs pre_position + iabs signed_qty
      if 0 < total_size then
        (state.vwap * ((iabs pre_position : ℤ) : ℚ) + price * ((iabs signed_qty : ℤ) : ℚ))
          / ((total_size : ℤ) : ℚ)
      else state.vwap
    else
      let residual := new_position
      if residual = 0 then price
      else if (0 < residual ∧ 0 < signed_qty) ∨ (residual < 0 ∧ signed_qty < 0) then
        price
      else state.vwap
  { positions := fun s =>
      if s = symbol then
        { symbol := state.symbol, position := new_position, vwap := vwap }
      else st.positions s,
    pnl := { st.pnl with realized := realized } }

structure Fill where
  symbol : String
  side : Side
  size : ℕ
  price : ℚ

/-- Fold a sequence of fills through register_fill, oldest first. -/
def apply_fills (st : StrategyState) (fills : List Fill) : StrategyState :=
  fills.foldl (fun s f => register_fill s f.symbol f.side f.size f.price) st

/-- The flat start state: every position 0 with VWAP 0, zero PnL. -/
def flat_state : StrategyState :=
  { positions := fun s => { symbol := s, position := 0, vwap := 0 },
    pnl := { realized := 0, unrealized := 0, equity_high_watermark := 0 } }

/-- C7: replaying buy 10 @ 100, sell 5 @ 110, sell 5 @ 120 from flat yields
position 0, realized 150 and VWAP 120; replaying buy 10 @ 100, sell 15 @ 110
from flat yields position -5, realized 100 and VWAP 110. -/
theorem register_fill_replay :
    (((apply_fills flat_state
        [⟨"ETF", Side.bid, 10, 100⟩, ⟨"ETF", Side.ask, 5, 110⟩,
         ⟨"ETF", Side.ask, 5, 120⟩]).positions "ETF").position = 0 ∧
     (apply_fills flat_state
        [⟨"ETF", Side.bid, 10, 100⟩, ⟨"ETF", Side.ask, 5, 110⟩,
         ⟨"ETF", Side.ask, 5, 120⟩]).pnl.realized = 150 ∧
     ((apply_fills flat_state
        [⟨"ETF", Side.bid, 10, 100⟩, ⟨"ETF", Side.ask, 5, 110⟩,
         ⟨"ETF", Side.ask, 5, 120⟩]).positions "ETF").vwap = 120) ∧
    (((apply_fills flat_state
        [⟨"ETF", Side.bid, 10, 100⟩, ⟨"ETF", Side.ask, 15, 110⟩]).positions
          "ETF").position = -5 ∧
     (apply_fills flat_state
        [⟨"ETF", Side.bid, 10, 100⟩, ⟨"ETF", Side.ask, 15, 110⟩]).pnl.realized
          = 100 ∧
     ((apply_fills flat_state
        [⟨"ETF", Side.bid, 10, 100⟩, ⟨"ETF", Side.ask, 15, 110⟩]).positions
          "ETF").vwap = 110) := by
  norm_num [apply_fills, register_fill, flat_state, imin, iabs, List.foldl]

/-- C4 counterexample: buying 1 @ 100 and then selling 1 @ 100 from flat
returns the position to zero while register_fill sets the VWAP to the last
fill price 100, so the VWAP field is nonzero at a zero position. -/
theorem vwap_zero_iff_position_zero_cex :
    ((apply_fills flat_state
        [⟨"ETF", Side.bid, 1, 100⟩, ⟨"ETF", Side.ask, 1, 100⟩]).positions
        "ETF").position = 0 ∧
    ((apply_fills flat_state
        [⟨"ETF", Side.bid, 1, 100⟩, ⟨"ETF", Side.ask, 1, 100⟩]).positions
        "ETF").vwap ≠ 0 := by
  norm_num [apply_fills, register_fill, flat_state, imin, iabs, List.foldl]

theorem register_fill_vwap_invariant (st : StrategyState) (symbol : String)
    (side : Side) (size : ℕ) (price : ℚ) (hp : 0 < price) (s : String)
    (hinv : (st.positions s).position = 0 ∨ 0 < (st.positions s).vwap) :
    ((register_fill st symbol side size price).positions s).position = 0 ∨
      0 < ((register_fill st symbol side size price).positions s).vwap := by
  by_cases hs : s = symbol
  · subst hs
    simp only [register_fill, iabs_eq, if_pos rfl, eq_self_iff_true, if_true]
    set pre := (st.positions s).position with hpre
    set v := (st.positions s).vwap with hv
    set sq : ℤ := (match side with
      | Side.bid => (size : ℤ)
      | Side.ask => -(size : ℤ)) with hsq
    by_cases hG : pre = 0 ∨ (0 < pre ∧ 0 < sq) ∨ (pre < 0 ∧ sq < 0)
    · rw [if_pos hG]
      by_cases htot : (0 : ℤ) < |pre| + |sq|
      · rw [if_pos htot]
        right
        apply div_pos
        · rcases hG with h0 | ⟨hpp, hsp⟩ | ⟨hpn, hsn⟩
          · rw [h0] at htot ⊢
            simp only [abs_zero, zero_add, Int.cast_zero, mul_zero] at htot ⊢
            have : (0 : ℚ) < ((|sq| : ℤ) : ℚ) := by exact_mod_cast htot
            exact mul_pos hp this
          · rcases hinv with h0 | hvp
            · omega
            · have h1 : (0 : ℚ) < ((|pre| : ℤ) : ℚ) := by
                have : (0 : ℤ) < |pre| := abs_pos.mpr (by omega)
                exact_mod_cast this
              have h2 : (0 : ℚ) ≤ ((|sq| : ℤ) : ℚ) := by
                have : (0 : ℤ) ≤ |sq| := abs_nonneg sq
                exact_mod_cast this
              nlinarith
          · rcases hinv with h0 | hvp
            · omega
            · have h1 : (0 : ℚ) < ((|pre| : ℤ) : ℚ) := by
                have : (0 : ℤ) < |pre| := abs_pos.mpr (by omega)
                exact_mod_cast this
              have h2 : (0 : ℚ) ≤ ((|sq| : ℤ) : ℚ) := by
                have : (0 : ℤ) ≤ |sq| := abs_nonneg sq
                exact_mod_cast this
              nlinarith
        · exact_mod_cast htot
      · rw [if_neg htot]
        left
        have h1 : (0 : ℤ) ≤ |pre| := abs_nonneg pre
        have h2 : (0 : ℤ) ≤ |sq| := abs_nonneg sq
        have hpre0 : pre = 0 := by
          have := abs_eq_zero.mp (by omega : |pre| = 0)
          exact this
        have hsq0 : sq = 0 := by
          have := abs_eq_zero.mp (by omega : |sq| = 0)
          exact this
        omega
    · rw [if_neg hG]
      by_cases hres : pre + sq = 0
      · rw [if_pos hres]
        left
        exact hres
      · rw [if_neg hres]
        by_cases hcross : (0 < pre + sq ∧ 0 < sq) ∨ (pre + sq < 0 ∧ sq < 0)
        · rw [if_pos hcross]
          right
          exact hp
        · rw [if_neg hcross]
          right
          rcases hinv with h0 | hvp
          · exact absurd (Or.inl h0) hG
          · exact hvp
  · simp only [register_fill, if_neg hs]
    exact hinv

theorem apply_fills_vwap_invariant (fills : List Fill) (st : StrategyState)
    (hp : ∀ f ∈ fills, 0 < f.price) (s : String)
    (hinv : (st.positions s).position = 0 ∨ 0 < (st.positions s).vwap) :
    ((apply_fills st fills).positions s).position = 0 ∨
      0 < ((apply_fills st fills).positions s).vwap := by
  induction fills generalizing st with
  | nil => exact hinv
  | cons f rest ih =>
    have hstep := register_fill_vwap_invariant st f.symbol f.side f.size f.price
      (hp f (List.mem_cons_self f rest)) s hinv
    exact ih (register_fill st f.symbol f.side f.size f.price)
      (fun g hg => hp g (List.mem_cons_of_mem f hg)) hstep

/-- C4 (amended): after folding any sequence of positive-priced fills from
the flat state, a zero VWAP implies a zero position; the converse direction
of the original claim fails, because a sequence that returns the position
to zero leaves the VWAP at the last executed fill price. -/
theorem vwap_zero_imp_position_zero (fills : List Fill) (s : String)
    (hp : ∀ f ∈ fills, 0 < f.price) :
    ((apply_fills flat_state fills).positions s).vwap = 0 →
      ((apply_fills flat_state fills).positions s).position = 0 := by
  intro hz
  have := apply_fills_vwap_invariant fills flat_state hp s (Or.inl rfl)
  rcases this with h0 | hvp
  · exact h0
  · rw [hz] at hvp
    exact absurd hvp (lt_irrefl 0)

/-- Witness for C4 (amended) on the one-fill sequence buy 2 @ 50. -/
theorem vwap_zero_imp_position_zero_witness :
    ((apply_fills flat_state [⟨"XYZ", Side.bid, 2, 50⟩]).positions
        "ABC").position = 0 :=
  vwap_zero_imp_position_zero [⟨"XYZ", Side.bid, 2, 50⟩] "ABC"
    (by
      intro f hf
      simp only [List.mem_singleton] at hf
      rw [hf]
      norm_num)
    (by rfl)

/-- C10: register_fill only mutates the PositionState of the filled symbol
and the realized PnL field: the PositionState of every other symbol and
the unrealized and equity_high_watermark fields are unchanged. -/
theorem register_fill_frame (st : StrategyState) (symbol : String) (side : Side)
    (size : ℕ) (price : ℚ) (s : String) (hs : s ≠ symbol) :
    (register_fill st symbol side size price).positions s = st.positions s ∧
    (register_fill st symbol side size price).pnl.unrealized = st.pnl.unrealized ∧
    (register_fill st symbol side size price).pnl.equity_high_watermark =
      st.pnl.equity_high_watermark := by
  refine ⟨?_, rfl, rfl⟩
  simp only [register_fill, if_neg hs]

/-- Witness for C10: a fill on ETF leaves the XYZ position state and the
non-realized PnL fields of a concrete state unchanged. -/
theorem register_fill_frame_witness :
    (register_fill flat_state "ETF" Side.bid 3 100).positions "XYZ" =
      flat_state.positions "XYZ" ∧
    (register_fill flat_state "ETF" Side.bid 3 100).pnl.unrealized =
      flat_state.pnl.unrealized ∧
    (register_fill flat_state "ETF" Side.bid 3 100).pnl.equity_high_watermark =
      flat_state.pnl.equity_high_watermark :=
  register_fill_frame flat_state "ETF" Side.bid 3 100 "XYZ" (by decide)

/-! ## Market data model (models.py) and quote engine (quote_engine.py) -/

structure MarketLevel where
  price : ℚ
  size : ℕ
deriving DecidableEq

structure OrderBook where
  bids : List MarketLevel
  asks : List MarketLevel
deriving DecidableEq

/-- OrderBook.mid: the mean of the best bid and best ask, undefined when
either side is empty. -/
def OrderBook.mid (book : OrderBook) : Option ℚ :=
  match book.bids, book.asks with
  | [], _ => none
  | _, [] => none
  | b0 :: _, a0 :: _ => some ((b0.price + a0.price) / 2)

structure MarketSnapshot where
  symbol : String
  order_book : OrderBook
  timestamp : ℚ
deriving DecidableEq

structure OrderLevel where
  symbol : String
  side : Side
  level_index : ℕ
  price : ℚ
  size : ℤ
deriving DecidableEq

structure QuoteContext where
  fair_value : ℚ
  volatility_bps : ℚ
  inventory_skew_bps : ℤ
  spread_scale : ℚ
  size_scale : ℚ
  bid_size_scale : ℚ
  ask_size_scale : ℚ
deriving DecidableEq

structure SymbolConfig where
  symbol : String
  base_size : ℤ
  size_multiplier : ℚ
  base_spread_bps : ℤ
  level_spread_step_bps : ℤ
  max_levels : ℕ
deriving DecidableEq

/-- Python int() applied to a rational: truncation toward zero. -/
def pyint (q : ℚ) : ℤ := if 0 ≤ q then ⌊q⌋ else -⌊-q⌋

/-- Embedding of quote_engine._price_from_bps. -/
def price_from_bps (mid : ℚ) (bps : ℚ) (side : Side) : ℚ :=
  let effective_bps := qmax 1 bps
  let delta := mid * (effective_bps / 10000)
  match side with
  | Side.bid => qmax (1/100) (mid - delta)
  | Side.ask => mid + delta

/-- The per-level loop of build_ladders: emits one bid and one ask per
level index, threading the geometric size seed. -/
def ladder_levels (symbol : String) (mid base_spread level_step maker_edge : ℚ)
    (skew : ℤ) (size_scale bid_size_scale ask_size_scale size_multiplier : ℚ) :
    ℕ → ℕ → ℤ → List OrderLevel × List OrderLevel
  | 0, _, _ => ([], [])
  | remaining + 1, level_index, current_size =>
    let offset_bps := base_spread + (level_index : ℚ) * level_step
    let base_size := imax 1 (pyint ((current_size : ℚ) * size_scale))
    let bid_size := imax 1 (pyint ((base_size : ℚ) * bid_size_scale))
    let ask_size := imax 1 (pyint ((base_size : ℚ) * ask_size_scale))
    let bid_bps := offset_bps + ((imax skew 0 : ℤ) : ℚ)
    let ask_bps := offset_bps + ((imax (-skew) 0 : ℤ) : ℚ)
    let bid_price := price_from_bps mid (bid_bps - maker_edge) Side.bid
    let ask_price := price_from_bps mid (ask_bps - maker_edge) Side.ask
    let next_size := imax 1 (pyint ((current_size : ℚ) * size_multiplier))
    let rest := ladder_levels symbol mid base_spread level_step maker_edge skew
      size_scale bid_size_scale ask_size_scale size_multiplier
      remaining (level_index + 1) next_size
    (⟨symbol, Side.bid, level_index, bid_price, bid_size⟩ :: rest.1,
     ⟨symbol, Side.ask, level_index, ask_price, ask_size⟩ :: rest.2)

/-- Embedding of quote_engine.build_ladders.  The Python expression
`ctx.fair_value or snapshot.order_book.mid` falls back to the book mid
exactly when fair_value equals zero (float truthiness). -/
def build_ladders (snapshot : MarketSnapshot) (ctx : QuoteContext)
    (symbol_config : SymbolConfig) : List OrderLevel × List OrderLevel :=
  let mid : Option ℚ :=
    if ctx.fair_value ≠ 0 then some ctx.fair_value else snapshot.order_book.mid
  match mid with
  | none => ([], [])
  | some m =>
    if m ≤ 0 then ([], [])
    else
      let base_spread := (symbol_config.base_spread_bps : ℚ) * ctx.spread_scale
        + ctx.volatility_bps
      let level_step := (symbol_config.level_spread_step_bps : ℚ) * ctx.spread_scale
      let size_seed := imax 1 symbol_config.base_size
      let maker_edge := EFFECTIVE_MAKER_EDGE_BPS / 2
      ladder_levels snapshot.symbol m base_spread level_step maker_edge
        ctx.inventory_skew_bps ctx.size_scale ctx.bid_size_scale
        ctx.ask_size_scale symbol_config.size_multiplier
        symbol_config.max_levels 0 size_seed

/-- Per-symbol ladder configuration from config.py (base_size 400,
multiplier 1.5, base spread 15 bps, step 15 bps, 6 levels). -/
def DEFAULT_SYMBOL_CONFIG (symbol : String) : SymbolConfig :=
  ⟨symbol, 400, 3/2, 15, 15, 6⟩

/-- A snapshot whose order book has best bid 99 and best ask 101 (mid 100). -/
def sample_snapshot : MarketSnapshot :=
  ⟨"ETF", ⟨[⟨99, 1⟩], [⟨101, 1⟩]⟩, 0⟩

theorem sample_snapshot_mid : sample_snapshot.order_book.mid = some 100 := by
  norm_num [sample_snapshot, OrderBook.mid]

/-- C3 counterexample: with a book mid of 100 (positive) and fair_value -1
(negative), build_ladders does not fall back to the snapshot mid: the
negative fair value is truthy in Python, becomes the mid, fails the
positivity check, and both ladders come back empty. -/
theorem build_ladders_negative_fair_value_cex :
    sample_snapshot.order_book.mid = some 100 ∧
    build_ladders sample_snapshot ⟨-1, 15, 0, 1, 1, 1, 1⟩
      (DEFAULT_SYMBOL_CONFIG "ETF") = ([], []) := by
  refine ⟨sample_snapshot_mid, ?_⟩
  norm_num [build_ladders]

/-- C3 (amended): build_ladders takes fair_value as the ladder mid whenever
it is nonzero, so a negative fair_value is used as-is, fails the positivity
check and produces two empty ladders instead of falling back to the book
mid; the book-mid fallback applies only when fair_value is exactly zero;
an unavailable or non-positive effective mid returns two empty ladders
with no error; and with zero fair_value, a positive book mid and at least
one configured level the bid ladder is non-empty. -/
theorem build_ladders_mid_selection (s : MarketSnapshot) (ctx : QuoteContext)
    (cfg : SymbolConfig) :
    (ctx.fair_value ≠ 0 →
      build_ladders s ctx cfg =
        build_ladders ⟨s.symbol, ⟨[], []⟩, s.timestamp⟩ ctx cfg) ∧
    (ctx.fair_value < 0 → build_ladders s ctx cfg = ([], [])) ∧
    (ctx.fair_value = 0 → s.order_book.mid = none →
      build_ladders s ctx cfg = ([], [])) ∧
    (∀ m, ctx.fair_value = 0 → s.order_book.mid = some m → m ≤ 0 →
      build_ladders s ctx cfg = ([], [])) ∧
    (∀ m, ctx.fair_value = 0 → s.order_book.mid = some m → 0 < m →
      0 < cfg.max_levels → (build_ladders s ctx cfg).1 ≠ []) := by
  refine ⟨?_, ?_, ?_, ?_, ?_⟩
  · intro h
    simp only [build_ladders, if_pos h]
  · intro h
    have hne : ctx.fair_value ≠ 0 := ne_of_lt h
    simp only [build_ladders, if_pos hne]
    rw [if_pos (le_of_lt h)]
  · intro h0 hmid
    unfold build_ladders
    rw [h0, hmid, if_neg (by norm_num : ¬ (0:ℚ) ≠ 0)]
  · intro m h0 hmid hm
    unfold build_ladders
    rw [h0, hmid, if_neg (by norm_num : ¬ (0:ℚ) ≠ 0)]
    dsimp only
    rw [if_pos hm]
  · intro m h0 hmid hm hlevels
    unfold build_ladders
    rw [h0, hmid, if_neg (by norm_num : ¬ (0:ℚ) ≠ 0)]
    dsimp only
    rw [if_neg (not_le.mpr hm)]
    obtain ⟨k, hk⟩ : ∃ k, cfg.max_levels = k + 1 :=
      ⟨cfg.max_levels - 1, by omega⟩
    rw [hk]
    simp only [ladder_levels]
    exact List.cons_ne_nil _ _

/-- Witness for C3 (amended) on concrete snapshots and contexts. -/
theorem build_ladders_mid_selection_witness :
    build_ladders sample_snapshot ⟨100, 15, 0, 1, 1, 1, 1⟩
        (DEFAULT_SYMBOL_CONFIG "ETF") =
      build_ladders ⟨"ETF", ⟨[], []⟩, 0⟩ ⟨100, 15, 0, 1, 1, 1, 1⟩
        (DEFAULT_SYMBOL_CONFIG "ETF") ∧
    build_ladders sample_snapshot ⟨-1, 15, 0, 1, 1, 1, 1⟩
      (DEFAULT_SYMBOL_CONFIG "ETF") = ([], []) ∧
    build_ladders ⟨"ETF", ⟨[], []⟩, 0⟩ ⟨0, 15, 0, 1, 1, 1, 1⟩
      (DEFAULT_SYMBOL_CONFIG "ETF") = ([], []) ∧
    build_ladders ⟨"ETF", ⟨[⟨-3, 1⟩], [⟨1, 1⟩]⟩, 0⟩ ⟨0, 15, 0, 1, 1, 1, 1⟩
      (DEFAULT_SYMBOL_CONFIG "ETF") = ([], []) ∧
    (build_ladders sample_snapshot ⟨0, 15, 0, 1, 1, 1, 1⟩
      (DEFAULT_SYMBOL_CONFIG "ETF")).1 ≠ [] :=
  ⟨(build_ladders_mid_selection sample_snapshot ⟨100, 15, 0, 1, 1, 1, 1⟩
      (DEFAULT_SYMBOL_CONFIG "ETF")).1 (by norm_num),
   (build_ladders_mid_selection sample_snapshot ⟨-1, 15, 0, 1, 1, 1, 1⟩
      (DEFAULT_SYMBOL_CONFIG "ETF")).2.1 (by norm_num),
   (build_ladders_mid_selection ⟨"ETF", ⟨[], []⟩, 0⟩ ⟨0, 15, 0, 1, 1, 1, 1⟩
      (DEFAULT_SYMBOL_CONFIG "ETF")).2.2.1 rfl rfl,
   (build_ladders_mid_selection ⟨"ETF", ⟨[⟨-3, 1⟩], [⟨1, 1⟩]⟩, 0⟩
      ⟨0, 15, 0, 1, 1, 1, 1⟩ (DEFAULT_SYMBOL_CONFIG "ETF")).2.2.2.1 (-1) rfl
      (by norm_num [OrderBook.mid]) (by norm_num),
   (build_ladders_mid_selection sample_snapshot ⟨0, 15, 0, 1, 1, 1, 1⟩
      (DEFAULT_SYMBOL_CONFIG "ETF")).2.2.2.2 100 rfl sample_snapshot_mid
      (by norm_num) (by norm_num [DEFAULT_SYMBOL_CONFIG])⟩

/-! ## Mispricing-driven size asymmetry (strategy.py) -/

/-- Embedding of Strategy._mispricing_intensity. -/
def mispricing_intensity (etf_mispricing_bps : ℚ) (weight : ℚ) : ℚ :=
  if weight ≤ 0 then 0
  else
    let base := qmin (qabs etf_mispricing_bps / qmax 1 MISPRICING_INTENSITY_BPS) 1
    qmax 0 (qmin 1 (base * weight))

/-- The per-symbol weight used by the mispricing logic: 1 for the ETF,
the basket weight (0 when absent) otherwise. -/
def symbol_weight (symbol : String) : ℚ :=
  if symbol = ETF_SYMBOL then 1 else SYNTHETIC_WEIGHTS symbol

/-- Embedding of Strategy._side_size_scales. -/
def side_size_scales (symbol : String) (etf_mispricing_bps : ℚ) : ℚ × ℚ :=
  let weight := symbol_weight symbol
  if etf_mispricing_bps = 0 ∨ weight ≤ 0 then (1, 1)
  else
    let intensity := mispricing_intensity etf_mispricing_bps weight
    let bonus := 1 + intensity * MISPRICING_SIZE_BONUS
    let penalty := qmax (1/2) (1 - intensity * MISPRICING_SIZE_PENALTY)
    if symbol = ETF_SYMBOL then
      if 0 < etf_mispricing_bps then (penalty, bonus) else (bonus, penalty)
    else
      if 0 < etf_mispricing_bps then (bonus, penalty) else (penalty, bonus)

theorem mispricing_intensity_pos (bps weight : ℚ) (hb : bps ≠ 0)
    (hw : 0 < weight) : 0 < mispricing_intensity bps weight := by
  unfold mispricing_intensity
  rw [if_neg (not_le.mpr hw)]
  have habs : 0 < qabs bps := by
    rw [qabs_eq]
    exact abs_pos.mpr hb
  have hbase : 0 < qmin (qabs bps / qmax 1 MISPRICING_INTENSITY_BPS) 1 := by
    rw [qmin_eq, qmax_eq]
    apply lt_min
    · apply div_pos habs
      exact lt_of_lt_of_le one_pos (le_max_left 1 _)
    · exact one_pos
  rw [qmax_eq, qmin_eq]
  have hmul : 0 < qmin (qabs bps / qmax 1 MISPRICING_INTENSITY_BPS) 1 * weight :=
    mul_pos hbase hw
  calc (0:ℚ) < min 1 (qmin (qabs bps / qmax 1 MISPRICING_INTENSITY_BPS) 1 * weight) :=
        lt_min one_pos hmul
    _ ≤ max 0 (min 1 (qmin (qabs bps / qmax 1 MISPRICING_INTENSITY_BPS) 1 * weight)) :=
        le_max_right _ _

theorem penalty_lt_bonus (i : ℚ) (hi : 0 < i) :
    qmax (1/2) (1 - i * MISPRICING_SIZE_PENALTY) < 1 + i * MISPRICING_SIZE_BONUS := by
  rw [qmax_eq]
  apply max_lt
  · simp only [MISPRICING_SIZE_BONUS]
    nlinarith
  · simp only [MISPRICING_SIZE_BONUS, MISPRICING_SIZE_PENALTY]
    nlinarith

/-- C9: _side_size_scales returns (1, 1) when the mispricing is zero or
the symbol weight is not positive; under strictly positive mispricing the
ETF ask scale exceeds its bid scale and every positive-weight basket
constituent has bid scale above ask scale; both inequalities flip under
strictly negative mispricing; and at 100 bps mispricing the ETF scales are
(0.5, 1.8) while the XYZ scales (weight 0.5) are (1.4, 0.75). -/
theorem side_size_scales_spec (sym : String) (bps : ℚ) :
    side_size_scales sym 0 = (1, 1) ∧
    (symbol_weight sym ≤ 0 → side_size_scales sym bps = (1, 1)) ∧
    (0 < bps →
      (side_size_scales ETF_SYMBOL bps).1 < (side_size_scales ETF_SYMBOL bps).2) ∧
    (0 < bps → sym ≠ ETF_SYMBOL → 0 < SYNTHETIC_WEIGHTS sym →
      (side_size_scales sym bps).2 < (side_size_scales sym bps).1) ∧
    (bps < 0 →
      (side_size_scales ETF_SYMBOL bps).2 < (side_size_scales ETF_SYMBOL bps).1) ∧
    (bps < 0 → sym ≠ ETF_SYMBOL → 0 < SYNTHETIC_WEIGHTS sym →
      (side_size_scales sym bps).1 < (side_size_scales sym bps).2) ∧
    side_size_scales ETF_SYMBOL 100 = (1/2, 9/5) ∧
    side_size_scales "XYZ" 100 = (7/5, 3/4) := by
  have hwetf : symbol_weight ETF_SYMBOL = 1 := by
    simp [symbol_weight]
  refine ⟨?_, ?_, ?_, ?_, ?_, ?_, ?_, ?_⟩
  · simp [side_size_scales]
  · intro hw
    unfold side_size_scales
    rw [if_pos (Or.inr hw)]
  · intro h
    simp only [side_size_scales, hwetf]
    rw [if_neg (by push_neg; exact ⟨ne_of_gt h, by norm_num⟩), if_pos trivial,
      if_pos h]
    exact penalty_lt_bonus _ (mispricing_intensity_pos bps 1 (ne_of_gt h) one_pos)
  · intro h hne hwpos
    have hw : symbol_weight sym = SYNTHETIC_WEIGHTS sym := by
      unfold symbol_weight
      rw [if_neg hne]
    simp only [side_size_scales, hw]
    rw [if_neg (by push_neg; exact ⟨ne_of_gt h, not_le.mp (by simpa using hwpos)⟩),
      if_neg hne, if_pos h]
    exact penalty_lt_bonus _
      (mispricing_intensity_pos bps (SYNTHETIC_WEIGHTS sym) (ne_of_gt h) hwpos)
  · intro h
    simp only [side_size_scales, hwetf]
    rw [if_neg (by push_neg; exact ⟨ne_of_lt h, by norm_num⟩), if_pos trivial,
      if_neg (not_lt.mpr (le_of_lt h))]
    exact penalty_lt_bonus _ (mispricing_intensity_pos bps 1 (ne_of_lt h) one_pos)
  · intro h hne hwpos
    have hw : symbol_weight sym = SYNTHETIC_WEIGHTS sym := by
      unfold symbol_weight
      rw [if_neg hne]
    simp only [side_size_scales, hw]
    rw [if_neg (by push_neg; exact ⟨ne_of_lt h, not_le.mp (by simpa using hwpos)⟩),
      if_neg hne, if_neg (not_lt.mpr (le_of_lt h))]
    exact penalty_lt_bonus _
      (mispricing_intensity_pos bps (SYNTHETIC_WEIGHTS sym) (ne_of_lt h) hwpos)
  · norm_num [side_size_scales, symbol_weight, ETF_SYMBOL, SYNTHETIC_WEIGHTS,
      mispricing_intensity, MISPRICING_INTENSITY_BPS, MISPRICING_SIZE_BONUS,
      MISPRICING_SIZE_PENALTY, qmax, qmin, qabs]
  · norm_num [side_size_scales, symbol_weight, ETF_SYMBOL, SYNTHETIC_WEIGHTS,
      mispricing_intensity, MISPRICING_INTENSITY_BPS, MISPRICING_SIZE_BONUS,
      MISPRICING_SIZE_PENALTY, qmax, qmin, qabs,
      eq_false (show ¬ ("XYZ" = "ETF") from by decide)]

/-- Witness for C9 at mispricings of 10 bps, -10 bps and the unweighted
symbol FOO. -/
theorem side_size_scales_spec_witness :
    (side_size_scales ETF_SYMBOL 10).1 < (side_size_scales ETF_SYMBOL 10).2 ∧
    (side_size_scales "XYZ" 10).2 < (side_size_scales "XYZ" 10).1 ∧
    (side_size_scales ETF_SYMBOL (-10)).2 < (side_size_scales ETF_SYMBOL (-10)).1 ∧
    (side_size_scales "XYZ" (-10)).1 < (side_size_scales "XYZ" (-10)).2 ∧
    side_size_scales "FOO" 7 = (1, 1) :=
  ⟨(side_size_scales_spec "XYZ" 10).2.2.1 (by norm_num),
   (side_size_scales_spec "XYZ" 10).2.2.2.1 (by norm_num) (by decide)
     (by norm_num [SYNTHETIC_WEIGHTS]),
   (side_size_scales_spec "XYZ" (-10)).2.2.2.2.1 (by norm_num),
   (side_size_scales_spec "XYZ" (-10)).2.2.2.2.2.1 (by norm_num) (by decide)
     (by norm_num [SYNTHETIC_WEIGHTS]),
   (side_size_scales_spec "FOO" 7).2.1
     (by norm_num [symbol_weight, ETF_SYMBOL, SYNTHETIC_WEIGHTS,
       eq_false (show ¬ ("FOO" = "ETF") from by decide),
       eq_false (show ¬ ("FOO" = "XYZ") from by decide),
       eq_false (show ¬ ("FOO" = "ABC") from by decide),
       eq_false (show ¬ ("FOO" = "DEF") from by decide)])⟩

/-! ## Rate limiter (order_manager.py, _reserve_action_slot)

One attempt of the reserve loop at a given monotonic time: the window
resets once at least one second has elapsed since window_start, and the
attempt is granted when the per-window counter is below the budget.
A denied attempt corresponds to the cooperative sleep before retrying;
because the check and the increment happen without an intervening await,
interleaved sync_symbol calls are just an arbitrary ordering of attempts,
which the schedule argument captures. -/

structure LimiterState where
  window_start : ℚ
  actions_this_window : ℕ
deriving DecidableEq

def reserve_attempt (s : LimiterState) (now : ℚ) : LimiterState × Bool :=
  let s0 := if 1 ≤ now - s.window_start then
      { window_start := now, actions_this_window := 0 }
    else s
  if s0.actions_this_window < MAX_ACTIONS_PER_SECOND then
    ({ s0 with actions_this_window := s0.actions_this_window + 1 }, true)
  else (s0, false)

/-- Run the limiter over a schedule of attempt times, recording for every
attempt whether it was granted. -/
def limiter_run (s : LimiterState) : List ℚ → LimiterState × List (ℚ × Bool)
  | [] => (s, [])
  | t :: ts =>
    let step := reserve_attempt s t
    let rest := limiter_run step.1 ts
    (rest.1, (t, step.2) :: rest.2)

/-- States traversed by the limiter over a schedule. -/
def limiter_states (s : LimiterState) : List ℚ → List LimiterState
  | [] => [s]
  | t :: ts => s :: limiter_states (reserve_attempt s t).1 ts

/-- Number of granted actions whose time lies in the half-open rolling
window (t0, t0 + 1]. -/
def grants_in (events : List (ℚ × Bool)) (t0 : ℚ) : ℕ :=
  (events.filter (fun ev => ev.2 && decide (t0 < ev.1) && decide (ev.1 ≤ t0 + 1))).length

theorem reserve_attempt_no_reset (s : LimiterState) (now : ℚ)
    (hlt : now - s.window_start < 1) (hcap : s.actions_this_window < MAX_ACTIONS_PER_SECOND) :
    reserve_attempt s now =
      ({ window_start := s.window_start,
         actions_this_window := s.actions_this_window + 1 }, true) := by
  unfold reserve_attempt
  rw [if_neg (not_le.mpr hlt)]
  rw [if_pos hcap]

theorem limiter_run_grant_block (n : ℕ) (w t : ℚ) (a : ℕ) (rest : List ℚ)
    (hlt : t - w < 1) (hcap : a + n ≤ MAX_ACTIONS_PER_SECOND) :
    limiter_run ⟨w, a⟩ (List.replicate n t ++ rest) =
      ((limiter_run ⟨w, a + n⟩ rest).1,
        List.replicate n (t, true) ++ (limiter_run ⟨w, a + n⟩ rest).2) := by
  induction n generalizing a with
  | zero => simp [limiter_run]
  | succ k ih =>
    have hstep := reserve_attempt_no_reset ⟨w, a⟩ t hlt
      (by simp only [MAX_ACTIONS_PER_SECOND] at hcap ⊢; omega)
    rw [List.replicate_succ, List.cons_append]
    conv_lhs => simp only [limiter_run]
    rw [hstep]
    dsimp only
    have hrec := ih (a + 1) (by omega)
    rw [show a + 1 + k = a + (k + 1) by omega] at hrec
    rw [hrec, List.replicate_succ, List.cons_append]

/-- The concrete overload schedule: 95 attempts at time 0.9 followed by 95
attempts at time 1.0 (all times nondecreasing). -/
def overload_schedule : List ℚ :=
  List.replicate 95 (9/10) ++ List.replicate 95 1

theorem filter_replicate_true {α : Type} (p : α → Bool) (x : α) (hx : p x = true) :
    ∀ n, List.filter p (List.replicate n x) = List.replicate n x := by
  intro n
  induction n with
  | zero => rfl
  | succ k ih => simp [List.replicate_succ, List.filter_cons, hx, ih]

theorem overload_schedule_events :
    (limiter_run ⟨0, 0⟩ overload_schedule).2 =
      List.replicate 95 ((9/10 : ℚ), true) ++
        ((1 : ℚ), true) :: List.replicate 94 ((1 : ℚ), true) := by
  unfold overload_schedule
  rw [limiter_run_grant_block 95 0 (9/10) 0 (List.replicate 95 1)
    (by norm_num) (by norm_num [MAX_ACTIONS_PER_SECOND])]
  have hreset : reserve_attempt ⟨0, 95⟩ 1 = (⟨1, 1⟩, true) := by
    unfold reserve_attempt
    rw [if_pos (by norm_num : (1:ℚ) ≤ 1 - 0)]
    rw [if_pos (by norm_num [MAX_ACTIONS_PER_SECOND])]
  rw [show (List.replicate 95 (1:ℚ)) = (1:ℚ) :: List.replicate 94 1 from rfl]
  unfold limiter_run
  rw [hreset]
  dsimp only
  rw [show (List.replicate 94 (1:ℚ)) = List.replicate 94 1 ++ [] by simp]
  rw [limiter_run_grant_block 94 1 1 1 [] (by norm_num)
    (by norm_num [MAX_ACTIONS_PER_SECOND])]
  simp [limiter_run]

/-- C1 counterexample: the limiter window is fixed, not rolling.  On the
nondecreasing schedule with 95 attempts at t = 0.9 and 95 at t = 1.0 every
attempt is granted (the second batch resets the window), so the rolling
one-second window (0.5, 1.5] contains 190 actions, exceeding the budget
of 95. -/
theorem chain'_le_replicate_append (m n : ℕ) (a b : ℚ) (h : a ≤ b) :
    List.Chain' (· ≤ ·) (List.replicate m a ++ List.replicate n b) := by
  induction m with
  | zero => simpa using List.chain'_replicate_of_rel n (le_refl b)
  | succ k ih =>
    rw [List.replicate_succ, List.cons_append, List.chain'_cons']
    refine ⟨?_, ih⟩
    intro y hy
    cases k with
    | zero =>
      cases n with
      | zero => simp [List.replicate] at hy
      | succ j =>
        simp only [List.replicate_succ, List.replicate_zero, List.nil_append,
          List.head?_cons, Option.mem_def, Option.some.injEq] at hy
        exact hy ▸ h
    | succ j =>
      simp only [List.replicate_succ, List.cons_append, List.head?_cons,
        Option.mem_def, Option.some.injEq] at hy
      exact hy ▸ le_refl a

theorem rate_limiter_rolling_window_cex :
    List.Chain' (· ≤ ·) overload_schedule ∧
    MAX_ACTIONS_PER_SECOND <
      grants_in (limiter_run ⟨0, 0⟩ overload_schedule).2 (1/2) := by
  refine ⟨chain'_le_replicate_append 95 95 (9/10) 1 (by norm_num), ?_⟩
  rw [overload_schedule_events]
  unfold grants_in
  rw [List.filter_append, filter_replicate_true _ _ (by norm_num) 95,
    List.filter_cons_of_pos (by norm_num),
    filter_replicate_true _ _ (by norm_num) 94]
  simp only [List.length_append, List.length_replicate, List.length_cons,
    MAX_ACTIONS_PER_SECOND]
  norm_num

theorem reserve_attempt_counter_le (s : LimiterState) (now : ℚ)
    (hs : s.actions_this_window ≤ MAX_ACTIONS_PER_SECOND) :
    (reserve_attempt s now).1.actions_this_window ≤ MAX_ACTIONS_PER_SECOND := by
  unfold reserve_attempt
  simp only [MAX_ACTIONS_PER_SECOND] at *
  split_ifs with h1 h2 h3 <;> simp <;> omega

/-- C1 (amended): the limiter enforces a fixed window, not a rolling one:
along any schedule of attempt times, the per-window action counter (the
number of grants since the window last reset) never exceeds
MAX_ACTIONS_PER_SECOND = 95, so at most 95 actions are issued between
consecutive window resets; a rolling one-second window straddling a reset
can still see up to 190 actions. -/
theorem rate_limiter_window_budget (sched : List ℚ) (s : LimiterState)
    (hs : s.actions_this_window ≤ MAX_ACTIONS_PER_SECOND) :
    ∀ s2 ∈ limiter_states s sched,
      s2.actions_this_window ≤ MAX_ACTIONS_PER_SECOND := by
  induction sched generalizing s with
  | nil =>
    intro s2 h2
    simp only [limiter_states, List.mem_singleton] at h2
    rw [h2]
    exact hs
  | cons t ts ih =>
    intro s2 h2
    simp only [limiter_states, List.mem_cons] at h2
    rcases h2 with h2 | h2
    · rw [h2]
      exact hs
    · exact ih (reserve_attempt s t).1 (reserve_attempt_counter_le s t hs) s2 h2

/-- Witness for C1 (amended) after one attempt at time 0.5 from a fresh
limiter. -/
theorem rate_limiter_window_budget_witness :
    (reserve_attempt ⟨0, 0⟩ (1/2)).1.actions_this_window ≤
      MAX_ACTIONS_PER_SECOND :=
  rate_limiter_window_budget [1/2] ⟨0, 0⟩
    (by norm_num [MAX_ACTIONS_PER_SECOND])
    (reserve_attempt ⟨0, 0⟩ (1/2)).1 (by simp [limiter_states])

/-! ## Order ladder manager (order_manager.py)

The mirror for one symbol and side is an association list from level index
to OrderInfo, mirroring the Python dict (lookup and in-place update by
key, deletion on prune).  Gateway calls are modelled by an environment
assigning to every action index either success or a failure message; the
Python exception that aborts sync_symbol is the first failure returned.
The action counter doubles as the order-id source. -/

structure OrderInfo where
  symbol : String
  side : Side
  level_index : ℕ
  price : ℚ
  size : ℤ
  order_id : ℕ
deriving DecidableEq

/-- Embedding of order_manager._bps_distance; none stands for the infinite
distance returned on non-positive prices. -/
def bps_distance (a b : ℚ) : Option ℚ :=
  if a ≤ 0 ∨ b ≤ 0 then none
  else some (qabs (a - b) / ((a + b) / 2) * 10000)

/-- Comparison of a bps distance against MIN_MOVE_TO_REFRESH_BPS, treating
none as infinite. -/
def distance_ge_refresh : Option ℚ → Bool
  | none => true
  | some d => decide (MIN_MOVE_TO_REFRESH_BPS ≤ d)

/-- Embedding of OrderLadderManager._needs_refresh. -/
def needs_refresh (existing : OrderInfo) (desired : OrderLevel) : Bool :=
  if existing.size ≠ desired.size then true
  else distance_ge_refresh (bps_distance existing.price desired.price)

abbrev SideMirror := List (ℕ × OrderInfo)

def dget : SideMirror → ℕ → Option OrderInfo
  | [], _ => none
  | (k, v) :: rest, i => if k = i then some v else dget rest i

def dset : SideMirror → ℕ → OrderInfo → SideMirror
  | [], i, v => [(i, v)]
  | (k, w) :: rest, i, v =>
    if k = i then (i, v) :: rest else (k, w) :: dset rest i v

/-- The OrderInfo returned by a successful place or replace of a desired
level; the order id is the index of the action that created it. -/
def order_info_of (level : OrderLevel) (oid : ℕ) : OrderInfo :=
  ⟨level.symbol, level.side, level.level_index, level.price, level.size, oid⟩

/-- Outcome oracle for gateway calls: none at index i means action i
succeeds, some e means it raises e. -/
abbrev ActionEnv := ℕ → Option String

def all_ok : ActionEnv := fun _ => none

/-- Embedding of OrderLadderManager._sync_side: place absent levels,
replace stale ones, stop at the first raised error (returned as some e
together with the mirror and action counter at that point). -/
def sync_side (env : ActionEnv) :
    List OrderLevel → SideMirror → ℕ → Option String × SideMirror × ℕ
  | [], m, c => (none, m, c)
  | level :: rest, m, c =>
    match dget m level.level_index with
    | none =>
      match env c with
      | some e => (some e, m, c + 1)
      | none =>
        sync_side env rest (dset m level.level_index (order_info_of level c)) (c + 1)
    | some existing =>
      if needs_refresh existing level then
        match env c with
        | some e => (some e, m, c + 1)
        | none =>
          sync_side env rest (dset m level.level_index (order_info_of level c)) (c + 1)
      else sync_side env rest m c

/-- Embedding of OrderLadderManager._prune_levels: cancel every live level
whose index is not desired, stopping at the first raised error. -/
def prune_side (env : ActionEnv) (desired : List ℕ) :
    SideMirror → ℕ → Option String × SideMirror × ℕ
  | [], c => (none, [], c)
  | (k, info) :: rest, c =>
    if k ∈ desired then
      let r := prune_side env desired rest c
      (r.1, (k, info) :: r.2.1, r.2.2)
    else
      match env c with
      | some e => (some e, (k, info) :: rest, c + 1)
      | none => prune_side env desired rest (c + 1)

/-- The mirror state of one symbol inside ActiveOrders, together with the
number of actions issued so far. -/
structure SymState where
  bid : SideMirror
  ask : SideMirror
  actions : ℕ
deriving DecidableEq

/-- Embedding of OrderLadderManager.sync_symbol: sync the bid side, then
the ask side, then prune both sides; a raised error aborts the remaining
steps and propagates. -/
def sync_symbol (env : ActionEnv) (st : SymState) (bids asks : List OrderLevel) :
    Option String × SymState :=
  let r1 := sync_side env bids st.bid st.actions
  match r1.1 with
  | some e => (some e, ⟨r1.2.1, st.ask, r1.2.2⟩)
  | none =>
    let r2 := sync_side env asks st.ask r1.2.2
    match r2.1 with
    | some e => (some e, ⟨r1.2.1, r2.2.1, r2.2.2⟩)
    | none =>
      let r3 := prune_side env (bids.map OrderLevel.level_index) r1.2.1 r2.2.2
      match r3.1 with
      | some e => (some e, ⟨r3.2.1, r2.2.1, r3.2.2⟩)
      | none =>
        let r4 := prune_side env (asks.map OrderLevel.level_index) r2.2.1 r3.2.2
        (r4.1, ⟨r3.2.1, r4.2.1, r4.2.2⟩)

theorem dget_dset_self (m : SideMirror) (k : ℕ) (v : OrderInfo) :
    dget (dset m k v) k = some v := by
  induction m with
  | nil => simp [dset, dget]
  | cons kv rest ih =>
    obtain ⟨k0, v0⟩ := kv
    by_cases h : k0 = k
    · simp [dset, h, dget]
    · simp [dset, h, dget, ih]

theorem dget_dset_ne (m : SideMirror) (k j : ℕ) (v : OrderInfo) (h : k ≠ j) :
    dget (dset m k v) j = dget m j := by
  induction m with
  | nil => simp [dset, dget, h]
  | cons kv rest ih =>
    obtain ⟨k0, v0⟩ := kv
    by_cases h0 : k0 = k
    · subst h0
      simp [dset, dget, h]
    · simp [dset, h0, dget, ih]

theorem sync_side_all_ok_err (ls : List OrderLevel) (m : SideMirror) (c : ℕ) :
    (sync_side all_ok ls m c).1 = none := by
  induction ls generalizing m c with
  | nil => rfl
  | cons l rest ih =>
    unfold sync_side
    cases hd : dget m l.level_index with
    | none =>
      dsimp only [all_ok]
      exact ih _ _
    | some ex =>
      dsimp only [all_ok]
      by_cases hr : needs_refresh ex l = true
      · rw [if_pos hr]
        exact ih _ _
      · rw [if_neg hr]
        exact ih _ _

theorem sync_side_all_ok_preserves (ls : List OrderLevel) (m : SideMirror)
    (c : ℕ) (j : ℕ) (hj : j ∉ ls.map OrderLevel.level_index) :
    dget (sync_side all_ok ls m c).2.1 j = dget m j := by
  induction ls generalizing m c with
  | nil => rfl
  | cons l rest ih =>
    have hjne : l.level_index ≠ j := by
      simp only [List.map_cons, List.mem_cons] at hj
      exact fun h => hj (Or.inl h.symm)
    have hjrest : j ∉ rest.map OrderLevel.level_index := by
      simp only [List.map_cons, List.mem_cons] at hj
      exact fun h => hj (Or.inr h)
    unfold sync_side
    cases hd : dget m l.level_index with
    | none =>
      dsimp only [all_ok]
      rw [ih _ _ hjrest]
      exact dget_dset_ne _ _ _ _ hjne
    | some ex =>
      dsimp only [all_ok]
      by_cases hr : needs_refresh ex l = true
      · rw [if_pos hr, ih _ _ hjrest]
        exact dget_dset_ne _ _ _ _ hjne
      · rw [if_neg hr]
        exact ih _ _ hjrest

theorem needs_refresh_self (level : OrderLevel) (hp : 0 < level.price) (oid : ℕ) :
    needs_refresh (order_info_of level oid) level = false := by
  unfold needs_refresh order_info_of
  rw [if_neg (by simp)]
  unfold bps_distance
  rw [if_neg (by push_neg; exact ⟨hp, hp⟩)]
  unfold distance_ge_refresh
  simp [qabs, MIN_MOVE_TO_REFRESH_BPS]

theorem sync_side_all_ok_matches (ls : List OrderLevel) (m : SideMirror) (c : ℕ)
    (hnd : (ls.map OrderLevel.level_index).Nodup)
    (hp : ∀ l ∈ ls, 0 < l.price) :
    ∀ l ∈ ls, ∃ ex,
      dget (sync_side all_ok ls m c).2.1 l.level_index = some ex ∧
      needs_refresh ex l = false := by
  induction ls generalizing m c with
  | nil =>
    intro l hl
    simp at hl
  | cons l0 rest ih =>
    have hnd' : (l0.level_index :: rest.map OrderLevel.level_index).Nodup := by
      simpa using hnd
    have hnd0 : l0.level_index ∉ rest.map OrderLevel.level_index ∧
        (rest.map OrderLevel.level_index).Nodup := List.nodup_cons.mp hnd'
    intro l hl
    rcases List.mem_cons.mp hl with heq | hmem
    · subst heq
      unfold sync_side
      cases hd : dget m l.level_index with
      | none =>
        dsimp only [all_ok]
        refine ⟨order_info_of l c, ?_, needs_refresh_self l (hp l hl) c⟩
        rw [sync_side_all_ok_preserves rest _ _ _ hnd0.1]
        exact dget_dset_self _ _ _
      | some ex =>
        dsimp only [all_ok]
        by_cases hr : needs_refresh ex l = true
        · rw [if_pos hr]
          refine ⟨order_info_of l c, ?_, needs_refresh_self l (hp l hl) c⟩
          rw [sync_side_all_ok_preserves rest _ _ _ hnd0.1]
          exact dget_dset_self _ _ _
        · rw [if_neg hr]
          refine ⟨ex, ?_, Bool.not_eq_true _ ▸ hr⟩
          rw [sync_side_all_ok_preserves rest _ _ _ hnd0.1]
          exact hd
    · unfold sync_side
      have hrest : ∀ g ∈ rest, 0 < g.price :=
        fun g hg => hp g (List.mem_cons_of_mem _ hg)
      cases hd : dget m l0.level_index with
      | none =>
        dsimp only [all_ok]
        exact ih _ _ hnd0.2 hrest l hmem
      | some ex =>
        dsimp only [all_ok]
        by_cases hr : needs_refresh ex l0 = true
        · rw [if_pos hr]
          exact ih _ _ hnd0.2 hrest l hmem
        · rw [if_neg hr]
          exact ih _ _ hnd0.2 hrest l hmem

theorem sync_side_noop (ls : List OrderLevel) (m : SideMirror) (c : ℕ)
    (h : ∀ l ∈ ls, ∃ ex,
      dget m l.level_index = some ex ∧ needs_refresh ex l = false) :
    sync_side all_ok ls m c = (none, m, c) := by
  induction ls generalizing c with
  | nil => rfl
  | cons l0 rest ih =>
    obtain ⟨ex, hex, hnr⟩ := h l0 (List.mem_cons_self l0 rest)
    unfold sync_side
    rw [hex]
    dsimp only [all_ok]
    rw [if_neg (by simp [hnr])]
    exact ih c (fun g hg => h g (List.mem_cons_of_mem _ hg))

theorem prune_side_all_ok_err (ds : List ℕ) (m : SideMirror) (c : ℕ) :
    (prune_side all_ok ds m c).1 = none := by
  induction m generalizing c with
  | nil => rfl
  | cons kv rest ih =>
    obtain ⟨k, info⟩ := kv
    unfold prune_side
    by_cases h : k ∈ ds
    · rw [if_pos h]
      exact ih _
    · rw [if_neg h]
      exact ih _

theorem prune_side_all_ok_mirror (ds : List ℕ) (m : SideMirror) (c : ℕ) :
    (prune_side all_ok ds m c).2.1 =
      m.filter (fun kv => decide (kv.1 ∈ ds)) := by
  induction m generalizing c with
  | nil => rfl
  | cons kv rest ih =>
    obtain ⟨k, info⟩ := kv
    unfold prune_side
    by_cases h : k ∈ ds
    · rw [if_pos h, List.filter_cons_of_pos (by simpa using h)]
      dsimp only
      rw [ih c]
    · rw [if_neg h, List.filter_cons_of_neg (by simpa using h)]
      exact ih _

theorem prune_side_noop (ds : List ℕ) (m : SideMirror) (c : ℕ)
    (h : ∀ kv ∈ m, kv.1 ∈ ds) :
    prune_side all_ok ds m c = (none, m, c) := by
  induction m generalizing c with
  | nil => rfl
  | cons kv rest ih =>
    obtain ⟨k, info⟩ := kv
    unfold prune_side
    rw [if_pos (h (k, info) (List.mem_cons_self _ _))]
    rw [ih c (fun g hg => h g (List.mem_cons_of_mem _ hg))]

theorem dget_cons (k0 : ℕ) (v0 : OrderInfo) (rest : SideMirror) (i : ℕ) :
    dget ((k0, v0) :: rest) i = if k0 = i then some v0 else dget rest i := rfl

theorem dget_filter_mem (ds : List ℕ) (m : SideMirror) (k : ℕ) (hk : k ∈ ds) :
    dget (m.filter (fun kv => decide (kv.1 ∈ ds))) k = dget m k := by
  induction m with
  | nil => rfl
  | cons kv rest ih =>
    obtain ⟨k0, v0⟩ := kv
    by_cases h0 : k0 ∈ ds
    · rw [List.filter_cons_of_pos (by simpa using h0), dget_cons, dget_cons]
      by_cases hk0 : k0 = k
      · rw [if_pos hk0, if_pos hk0]
      · rw [if_neg hk0, if_neg hk0, ih]
    · rw [List.filter_cons_of_neg (by simpa using h0), dget_cons]
      have hne : k0 ≠ k := fun he => h0 (he ▸ hk)
      rw [if_neg hne, ih]

/-- C2 counterexample: with a gateway whose first call raises, sync_symbol
on two desired bid levels hands the error back to its caller instead of
logging and continuing: the result carries the error, only one action was
attempted, the second level was never processed and the mirror is
untouched. -/
theorem sync_symbol_error_cex :
    sync_symbol (fun _ => some "network error") ⟨[], [], 0⟩
      [⟨"ETF", Side.bid, 0, 100, 5⟩, ⟨"ETF", Side.bid, 1, 99, 5⟩] [] =
      (some "network error", ⟨[], [], 1⟩) := rfl

theorem sync_side_cons_place_fail (env : ActionEnv) (l : OrderLevel)
    (rest : List OrderLevel) (m : SideMirror) (c : ℕ) (e : String)
    (hfail : env c = some e) (habsent : dget m l.level_index = none) :
    sync_side env (l :: rest) m c = (some e, m, c + 1) := by
  unfold sync_side
  rw [habsent, hfail]

theorem sync_side_cons_place_ok (env : ActionEnv) (l : OrderLevel)
    (rest : List OrderLevel) (m : SideMirror) (c : ℕ)
    (hok : env c = none) (habsent : dget m l.level_index = none) :
    sync_side env (l :: rest) m c =
      sync_side env rest (dset m l.level_index (order_info_of l c)) (c + 1) := by
  conv_lhs => simp only [sync_side]
  rw [habsent, hok]

theorem sync_side_cons_replace_fail (env : ActionEnv) (l : OrderLevel)
    (rest : List OrderLevel) (m : SideMirror) (c : ℕ) (ex : OrderInfo)
    (e : String) (hfail : env c = some e)
    (hsome : dget m l.level_index = some ex)
    (hr : needs_refresh ex l = true) :
    sync_side env (l :: rest) m c = (some e, m, c + 1) := by
  unfold sync_side
  rw [hsome]
  dsimp only
  rw [if_pos hr, hfail]

theorem sync_side_cons_replace_ok (env : ActionEnv) (l : OrderLevel)
    (rest : List OrderLevel) (m : SideMirror) (c : ℕ) (ex : OrderInfo)
    (hok : env c = none) (hsome : dget m l.level_index = some ex)
    (hr : needs_refresh ex l = true) :
    sync_side env (l :: rest) m c =
      sync_side env rest (dset m l.level_index (order_info_of l c)) (c + 1) := by
  conv_lhs => simp only [sync_side]
  rw [hsome]
  dsimp only
  rw [if_pos hr, hok]

theorem sync_side_cons_norefresh (env : ActionEnv) (l : OrderLevel)
    (rest : List OrderLevel) (m : SideMirror) (c : ℕ) (ex : OrderInfo)
    (hsome : dget m l.level_index = some ex)
    (hr : needs_refresh ex l = false) :
    sync_side env (l :: rest) m c = sync_side env rest m c := by
  conv_lhs => simp only [sync_side]
  rw [hsome]
  dsimp only
  rw [if_neg (by simp [hr])]

theorem prune_side_cons_keep (env : ActionEnv) (ds : List ℕ) (k : ℕ)
    (info : OrderInfo) (rest : SideMirror) (c : ℕ) (hk : k ∈ ds) :
    prune_side env ds ((k, info) :: rest) c =
      ((prune_side env ds rest c).1,
       (k, info) :: (prune_side env ds rest c).2.1,
       (prune_side env ds rest c).2.2) := by
  conv_lhs => simp only [prune_side]
  rw [if_pos hk]

theorem prune_side_cons_cancel_fail (env : ActionEnv) (ds : List ℕ) (k : ℕ)
    (info : OrderInfo) (rest : SideMirror) (c : ℕ) (e : String)
    (hfail : env c = some e) (hk : k ∉ ds) :
    prune_side env ds ((k, info) :: rest) c =
      (some e, (k, info) :: rest, c + 1) := by
  unfold prune_side
  rw [if_neg hk, hfail]

theorem prune_side_cons_cancel_ok (env : ActionEnv) (ds : List ℕ) (k : ℕ)
    (info : OrderInfo) (rest : SideMirror) (c : ℕ)
    (hok : env c = none) (hk : k ∉ ds) :
    prune_side env ds ((k, info) :: rest) c = prune_side env ds rest (c + 1) := by
  conv_lhs => simp only [prune_side]
  rw [if_neg hk, hok]

theorem sync_side_append_of_ok (env : ActionEnv) (pre suf : List OrderLevel)
    (m : SideMirror) (c : ℕ) (hok : (sync_side env pre m c).1 = none) :
    sync_side env (pre ++ suf) m c =
      sync_side env suf (sync_side env pre m c).2.1
        (sync_side env pre m c).2.2 := by
  induction pre generalizing m c with
  | nil => rfl
  | cons l pre ih =>
    rw [List.cons_append]
    cases hd : dget m l.level_index with
    | none =>
      cases he : env c with
      | some e =>
        rw [sync_side_cons_place_fail env l pre m c e he hd] at hok
        simp at hok
      | none =>
        rw [sync_side_cons_place_ok env l pre m c he hd] at hok ⊢
        rw [sync_side_cons_place_ok env l (pre ++ suf) m c he hd]
        exact ih _ _ hok
    | some ex =>
      by_cases hr : needs_refresh ex l = true
      · cases he : env c with
        | some e =>
          rw [sync_side_cons_replace_fail env l pre m c ex e he hd hr] at hok
          simp at hok
        | none =>
          rw [sync_side_cons_replace_ok env l pre m c ex he hd hr] at hok ⊢
          rw [sync_side_cons_replace_ok env l (pre ++ suf) m c ex he hd hr]
          exact ih _ _ hok
      · have hrf : needs_refresh ex l = false := by simpa using hr
        rw [sync_side_cons_norefresh env l pre m c ex hd hrf] at hok ⊢
        rw [sync_side_cons_norefresh env l (pre ++ suf) m c ex hd hrf]
        exact ih _ _ hok

theorem prune_side_append_of_ok (env : ActionEnv) (ds : List ℕ)
    (pre suf : SideMirror) (c : ℕ)
    (hok : (prune_side env ds pre c).1 = none) :
    prune_side env ds (pre ++ suf) c =
      ((prune_side env ds suf (prune_side env ds pre c).2.2).1,
       (prune_side env ds pre c).2.1 ++
         (prune_side env ds suf (prune_side env ds pre c).2.2).2.1,
       (prune_side env ds suf (prune_side env ds pre c).2.2).2.2) := by
  induction pre generalizing c with
  | nil => rfl
  | cons kv pre ih =>
    obtain ⟨k, info⟩ := kv
    by_cases hk : k ∈ ds
    · rw [prune_side_cons_keep env ds k info pre c hk] at hok ⊢
      rw [List.cons_append, prune_side_cons_keep env ds k info (pre ++ suf) c hk]
      dsimp only at hok ⊢
      rw [ih c hok]
      simp [List.cons_append]
    · cases he : env c with
      | some e =>
        rw [prune_side_cons_cancel_fail env ds k info pre c e he hk] at hok
        simp at hok
      | none =>
        rw [prune_side_cons_cancel_ok env ds k info pre c he hk] at hok ⊢
        rw [List.cons_append,
          prune_side_cons_cancel_ok env ds k info (pre ++ suf) c he hk]
        exact ih (c + 1) hok

theorem sync_symbol_of_bid_err (env : ActionEnv) (st : SymState)
    (bids asks : List OrderLevel) (e : String) (m : SideMirror) (c : ℕ)
    (hb : sync_side env bids st.bid st.actions = (some e, m, c)) :
    sync_symbol env st bids asks = (some e, ⟨m, st.ask, c⟩) := by
  unfold sync_symbol
  rw [hb]

theorem sync_symbol_of_ask_err (env : ActionEnv) (st : SymState)
    (bids asks : List OrderLevel) (e : String) (mb ma : SideMirror)
    (c1 c2 : ℕ)
    (hb : sync_side env bids st.bid st.actions = (none, mb, c1))
    (ha : sync_side env asks st.ask c1 = (some e, ma, c2)) :
    sync_symbol env st bids asks = (some e, ⟨mb, ma, c2⟩) := by
  unfold sync_symbol
  rw [hb]
  dsimp only
  rw [ha]

theorem sync_symbol_of_bid_prune_err (env : ActionEnv) (st : SymState)
    (bids asks : List OrderLevel) (e : String) (mb ma mb2 : SideMirror)
    (c1 c2 c3 : ℕ)
    (hb : sync_side env bids st.bid st.actions = (none, mb, c1))
    (ha : sync_side env asks st.ask c1 = (none, ma, c2))
    (hp : prune_side env (bids.map OrderLevel.level_index) mb c2 =
      (some e, mb2, c3)) :
    sync_symbol env st bids asks = (some e, ⟨mb2, ma, c3⟩) := by
  unfold sync_symbol
  rw [hb]
  dsimp only
  rw [ha]
  dsimp only
  rw [hp]

theorem sync_symbol_of_stages_ok (env : ActionEnv) (st : SymState)
    (bids asks : List OrderLevel) (mb ma mb2 : SideMirror) (c1 c2 c3 : ℕ)
    (hb : sync_side env bids st.bid st.actions = (none, mb, c1))
    (ha : sync_side env asks st.ask c1 = (none, ma, c2))
    (hp : prune_side env (bids.map OrderLevel.level_index) mb c2 =
      (none, mb2, c3)) :
    sync_symbol env st bids asks =
      ((prune_side env (asks.map OrderLevel.level_index) ma c3).1,
       ⟨mb2, (prune_side env (asks.map OrderLevel.level_index) ma c3).2.1,
        (prune_side env (asks.map OrderLevel.level_index) ma c3).2.2⟩) := by
  unfold sync_symbol
  rw [hb]
  dsimp only
  rw [ha]
  dsimp only
  rw [hp]

/-- C2 (amended): when an individual gateway action inside sync_symbol
fails, the error propagates out of sync_symbol to the caller, whichever
action it is and wherever in the batch it happens: a failing place or
replace aborts _sync_side at that level with the mirror unchanged, the
remaining levels unprocessed and the entry for the failed level neither
created, removed nor replaced; a failing cancel aborts _prune_levels with
the entry still present and the remaining entries unprocessed; a
successfully processed prefix of a batch composes with the processing of
the remainder, so these step facts cover failures at any position; and an
error arising in any of the four stages of sync_symbol (bid sync, ask
sync, bid prune, ask prune) is returned to the caller with the later
stages not attempted. -/
theorem sync_symbol_error_propagates (env : ActionEnv) :
    (∀ (l : OrderLevel) (rest : List OrderLevel) (m : SideMirror) (c : ℕ)
        (e : String), env c = some e → dget m l.level_index = none →
      sync_side env (l :: rest) m c = (some e, m, c + 1)) ∧
    (∀ (l : OrderLevel) (rest : List OrderLevel) (m : SideMirror) (c : ℕ)
        (ex : OrderInfo) (e : String), env c = some e →
      dget m l.level_index = some ex → needs_refresh ex l = true →
      sync_side env (l :: rest) m c = (some e, m, c + 1)) ∧
    (∀ (ds : List ℕ) (k : ℕ) (info : OrderInfo) (rest : SideMirror) (c : ℕ)
        (e : String), env c = some e → k ∉ ds →
      prune_side env ds ((k, info) :: rest) c =
        (some e, (k, info) :: rest, c + 1)) ∧
    (∀ (pre suf : List OrderLevel) (m : SideMirror) (c : ℕ),
      (sync_side env pre m c).1 = none →
      sync_side env (pre ++ suf) m c =
        sync_side env suf (sync_side env pre m c).2.1
          (sync_side env pre m c).2.2) ∧
    (∀ (ds : List ℕ) (pre suf : SideMirror) (c : ℕ),
      (prune_side env ds pre c).1 = none →
      prune_side env ds (pre ++ suf) c =
        ((prune_side env ds suf (prune_side env ds pre c).2.2).1,
         (prune_side env ds pre c).2.1 ++
           (prune_side env ds suf (prune_side env ds pre c).2.2).2.1,
         (prune_side env ds suf (prune_side env ds pre c).2.2).2.2)) ∧
    (∀ (st : SymState) (bids asks : List OrderLevel) (e : String)
        (m : SideMirror) (c : ℕ),
      sync_side env bids st.bid st.actions = (some e, m, c) →
      sync_symbol env st bids asks = (some e, ⟨m, st.ask, c⟩)) ∧
    (∀ (st : SymState) (bids asks : List OrderLevel) (e : String)
        (mb ma : SideMirror) (c1 c2 : ℕ),
      sync_side env bids st.bid st.actions = (none, mb, c1) →
      sync_side env asks st.ask c1 = (some e, ma, c2) →
      sync_symbol env st bids asks = (some e, ⟨mb, ma, c2⟩)) ∧
    (∀ (st : SymState) (bids asks : List OrderLevel) (e : String)
        (mb ma mb2 : SideMirror) (c1 c2 c3 : ℕ),
      sync_side env bids st.bid st.actions = (none, mb, c1) →
      sync_side env asks st.ask c1 = (none, ma, c2) →
      prune_side env (bids.map OrderLevel.level_index) mb c2 =
        (some e, mb2, c3) →
      sync_symbol env st bids asks = (some e, ⟨mb2, ma, c3⟩)) ∧
    (∀ (st : SymState) (bids asks : List OrderLevel)
        (mb ma mb2 : SideMirror) (c1 c2 c3 : ℕ),
      sync_side env bids st.bid st.actions = (none, mb, c1) →
      sync_side env asks st.ask c1 = (none, ma, c2) →
      prune_side env (bids.map OrderLevel.level_index) mb c2 =
        (none, mb2, c3) →
      sync_symbol env st bids asks =
        ((prune_side env (asks.map OrderLevel.level_index) ma c3).1,
         ⟨mb2, (prune_side env (asks.map OrderLevel.level_index) ma c3).2.1,
          (prune_side env (asks.map OrderLevel.level_index) ma c3).2.2⟩)) :=
  ⟨fun l rest m c e hf ha => sync_side_cons_place_fail env l rest m c e hf ha,
   fun l rest m c ex e hf hs hr =>
     sync_side_cons_replace_fail env l rest m c ex e hf hs hr,
   fun ds k info rest c e hf hk =>
     prune_side_cons_cancel_fail env ds k info rest c e hf hk,
   fun pre suf m c hok => sync_side_append_of_ok env pre suf m c hok,
   fun ds pre suf c hok => prune_side_append_of_ok env ds pre suf c hok,
   fun st bids asks e m c hb => sync_symbol_of_bid_err env st bids asks e m c hb,
   fun st bids asks e mb ma c1 c2 hb ha =>
     sync_symbol_of_ask_err env st bids asks e mb ma c1 c2 hb ha,
   fun st bids asks e mb ma mb2 c1 c2 c3 hb ha hp =>
     sync_symbol_of_bid_prune_err env st bids asks e mb ma mb2 c1 c2 c3 hb ha hp,
   fun st bids asks mb ma mb2 c1 c2 c3 hb ha hp =>
     sync_symbol_of_stages_ok env st bids asks mb ma mb2 c1 c2 c3 hb ha hp⟩

/-- Witness for C2 (amended): a failing place on an empty mirror, a
failing replace on a stale size, a failing cancel on an undesired level,
and a cancel rejection inside the bid prune of a full sync_symbol run
whose first two actions succeeded. -/
theorem sync_symbol_error_propagates_witness :
    sync_side (fun _ => some "boom") [⟨"ETF", Side.bid, 0, 100, 5⟩] [] 0 =
      (some "boom", [], 1) ∧
    sync_side (fun _ => some "boom") [⟨"ETF", Side.bid, 0, 100, 5⟩]
      [(0, ⟨"ETF", Side.bid, 0, 100, 7, 42⟩)] 0 =
      (some "boom", [(0, ⟨"ETF", Side.bid, 0, 100, 7, 42⟩)], 1) ∧
    prune_side (fun _ => some "boom") [1]
      [(0, ⟨"ETF", Side.bid, 0, 100, 7, 42⟩)] 0 =
      (some "boom", [(0, ⟨"ETF", Side.bid, 0, 100, 7, 42⟩)], 1) ∧
    sync_symbol (fun i => if i < 2 then none else some "cancel rejected")
      ⟨[(5, ⟨"ETF", Side.bid, 5, 90, 5, 99⟩)], [], 0⟩
      [⟨"ETF", Side.bid, 0, 100, 5⟩] [⟨"ETF", Side.ask, 0, 101, 5⟩] =
      (some "cancel rejected",
       ⟨[(5, ⟨"ETF", Side.bid, 5, 90, 5, 99⟩),
         (0, ⟨"ETF", Side.bid, 0, 100, 5, 0⟩)],
        [(0, ⟨"ETF", Side.ask, 0, 101, 5, 1⟩)], 3⟩) :=
  ⟨(sync_symbol_error_propagates (fun _ => some "boom")).1
     ⟨"ETF", Side.bid, 0, 100, 5⟩ [] [] 0 "boom" rfl rfl,
   (sync_symbol_error_propagates (fun _ => some "boom")).2.1
     ⟨"ETF", Side.bid, 0, 100, 5⟩ [] [(0, ⟨"ETF", Side.bid, 0, 100, 7, 42⟩)] 0
     ⟨"ETF", Side.bid, 0, 100, 7, 42⟩ "boom" rfl rfl rfl,
   (sync_symbol_error_propagates (fun _ => some "boom")).2.2.1
     [1] 0 ⟨"ETF", Side.bid, 0, 100, 7, 42⟩ [] 0 "boom" rfl (by decide),
   (sync_symbol_error_propagates
       (fun i => if i < 2 then none else some "cancel rejected")).2.2.2.2.2.2.2.1
     ⟨[(5, ⟨"ETF", Side.bid, 5, 90, 5, 99⟩)], [], 0⟩
     [⟨"ETF", Side.bid, 0, 100, 5⟩] [⟨"ETF", Side.ask, 0, 101, 5⟩]
     "cancel rejected"
     [(5, ⟨"ETF", Side.bid, 5, 90, 5, 99⟩), (0, ⟨"ETF", Side.bid, 0, 100, 5, 0⟩)]
     [(0, ⟨"ETF", Side.ask, 0, 101, 5, 1⟩)]
     [(5, ⟨"ETF", Side.bid, 5, 90, 5, 99⟩), (0, ⟨"ETF", Side.bid, 0, 100, 5, 0⟩)]
     1 2 3 rfl rfl rfl⟩

theorem sync_symbol_all_ok_eq (st : SymState) (bids asks : List OrderLevel) :
    sync_symbol all_ok st bids asks =
      (let r1 := sync_side all_ok bids st.bid st.actions
       let r2 := sync_side all_ok asks st.ask r1.2.2
       let r3 := prune_side all_ok (bids.map OrderLevel.level_index) r1.2.1 r2.2.2
       let r4 := prune_side all_ok (asks.map OrderLevel.level_index) r2.2.1 r3.2.2
       (none, ⟨r3.2.1, r4.2.1, r4.2.2⟩)) := by
  unfold sync_symbol
  simp only [sync_side_all_ok_err, prune_side_all_ok_err]

/-- C8: sync_symbol is idempotent under an error-free gateway: for desired
ladders with positive prices and distinct level indexes, the first call
reports no error and an immediately repeated call with identical inputs
returns exactly the state produced by the first call with the action
counter unchanged, i.e. it issues zero place, replace or cancel actions. -/
theorem sync_symbol_idempotent (st : SymState) (bids asks : List OrderLevel)
    (hbp : ∀ l ∈ bids, 0 < l.price) (hap : ∀ l ∈ asks, 0 < l.price)
    (hbn : (bids.map OrderLevel.level_index).Nodup)
    (han : (asks.map OrderLevel.level_index).Nodup) :
    (sync_symbol all_ok st bids asks).1 = none ∧
    sync_symbol all_ok (sync_symbol all_ok st bids asks).2 bids asks =
      (none, (sync_symbol all_ok st bids asks).2) := by
  have hP3get : ∀ (c2 : ℕ), ∀ l ∈ bids, ∃ ex,
      dget (prune_side all_ok (bids.map OrderLevel.level_index)
        (sync_side all_ok bids st.bid st.actions).2.1 c2).2.1 l.level_index =
          some ex ∧
      needs_refresh ex l = false := by
    intro c2 l hl
    obtain ⟨ex, hex, hnr⟩ :=
      sync_side_all_ok_matches bids st.bid st.actions hbn hbp l hl
    refine ⟨ex, ?_, hnr⟩
    rw [prune_side_all_ok_mirror,
      dget_filter_mem _ _ _ (List.mem_map_of_mem OrderLevel.level_index hl)]
    exact hex
  have hP4get : ∀ (c1 c3 : ℕ), ∀ l ∈ asks, ∃ ex,
      dget (prune_side all_ok (asks.map OrderLevel.level_index)
        (sync_side all_ok asks st.ask c1).2.1 c3).2.1 l.level_index = some ex ∧
      needs_refresh ex l = false := by
    intro c1 c3 l hl
    obtain ⟨ex, hex, hnr⟩ :=
      sync_side_all_ok_matches asks st.ask c1 han hap l hl
    refine ⟨ex, ?_, hnr⟩
    rw [prune_side_all_ok_mirror,
      dget_filter_mem _ _ _ (List.mem_map_of_mem OrderLevel.level_index hl)]
    exact hex
  have hP3keys : ∀ (m : SideMirror) (c2 : ℕ), ∀ kv ∈
      (prune_side all_ok (bids.map OrderLevel.level_index) m c2).2.1,
      kv.1 ∈ bids.map OrderLevel.level_index := by
    intro m c2 kv hkv
    rw [prune_side_all_ok_mirror] at hkv
    exact of_decide_eq_true (List.mem_filter.mp hkv).2
  have hP4keys : ∀ (m : SideMirror) (c3 : ℕ), ∀ kv ∈
      (prune_side all_ok (asks.map OrderLevel.level_index) m c3).2.1,
      kv.1 ∈ asks.map OrderLevel.level_index := by
    intro m c3 kv hkv
    rw [prune_side_all_ok_mirror] at hkv
    exact of_decide_eq_true (List.mem_filter.mp hkv).2
  constructor
  · rw [sync_symbol_all_ok_eq]
  · rw [sync_symbol_all_ok_eq st bids asks]
    dsimp only
    rw [sync_symbol_all_ok_eq]
    dsimp only
    rw [sync_side_noop bids _ _ (hP3get _)]
    dsimp only
    rw [sync_side_noop asks _ _ (hP4get _ _)]
    dsimp only
    rw [prune_side_noop _ _ _ (hP3keys _ _)]
    dsimp only
    rw [prune_side_noop _ _ _ (hP4keys _ _)]

/-- Witness for C8 on a one-level bid and ask ladder from an empty
mirror. -/
theorem sync_symbol_idempotent_witness :
    (sync_symbol all_ok ⟨[], [], 0⟩ [⟨"A", Side.bid, 0, 100, 5⟩]
      [⟨"A", Side.ask, 0, 101, 5⟩]).1 = none ∧
    sync_symbol all_ok
      (sync_symbol all_ok ⟨[], [], 0⟩ [⟨"A", Side.bid, 0, 100, 5⟩]
        [⟨"A", Side.ask, 0, 101, 5⟩]).2
      [⟨"A", Side.bid, 0, 100, 5⟩] [⟨"A", Side.ask, 0, 101, 5⟩] =
      (none,
        (sync_symbol all_ok ⟨[], [], 0⟩ [⟨"A", Side.bid, 0, 100, 5⟩]
          [⟨"A", Side.ask, 0, 101, 5⟩]).2) :=
  sync_symbol_idempotent ⟨[], [], 0⟩ [⟨"A", Side.bid, 0, 100, 5⟩]
    [⟨"A", Side.ask, 0, 101, 5⟩]
    (by intro l hl; rw [List.mem_singleton] at hl; rw [hl]; norm_num)
    (by intro l hl; rw [List.mem_singleton] at hl; rw [hl]; norm_num)
    (by simp) (by simp)

end DeltaBot
